import Mathlib

/-!
Verification development for the `tui-candlestick-chart` repository.

The rendering core lives in `src/candlestick_chart.rs` (together with the
glyph table `src/symbols.rs`); it is embedded below faithfully, stage by
stage.  The modules `candle.rs`, `y_axis.rs`, `x_axis.rs` and
`candlestick_chart_state.rs` are declared in `lib.rs` but their sources are
not part of the repository snapshot, so the definitions taken from them are
modelled from the specification and are marked as such in their doc
comments.

Prices are `OrderedFloat<f64>` in the source; within the scope of this
development they are only ever compared, ordered, copied, and min/max-ed
(never added or multiplied), so they are embedded as rationals `Rat`, an
order-faithful model of those operations.
-/

namespace Chart

/-- Modelled from the spec: color values carried by the chart configuration
(`ratatui`'s `Color` is an external type; only RGB literals occur in the
core). -/
inductive Color where
  | rgb (r g b : Nat) : Color
deriving DecidableEq, Repr

/-- Modelled from the spec: widget base style (external `ratatui` type; the
core only stores a default one and an optional foreground color). -/
structure Style where
  fg : Option Color := none
deriving DecidableEq, Repr

/-- Modelled from the spec: `Interval` is "an enumerated, fixed duration
step (e.g. one second, one minute, ...) with a known millisecond magnitude"
(`x_axis.rs` is not in the repository snapshot).  The discriminant used by
`self.interval as i64` is the duration in seconds. -/
inductive Interval where
  | OneSecond
  | OneMinute
  | FiveMinutes
  | FifteenMinutes
  | OneHour
  | OneDay
deriving DecidableEq, Repr

/-- The `self.interval as i64` cast: the enum discriminant, in seconds. -/
def Interval.seconds : Interval → Nat
  | .OneSecond => 1
  | .OneMinute => 60
  | .FiveMinutes => 300
  | .FifteenMinutes => 900
  | .OneHour => 3600
  | .OneDay => 86400

/-- `self.interval as i64 * 1000`: the interval magnitude in milliseconds. -/
def Interval.ms (i : Interval) : Int := (i.seconds : Int) * 1000

theorem Interval.ms_pos (i : Interval) : 0 < i.ms := by
  cases i <;> decide

/-- Modelled from the spec (§3, `candle.rs` is not in the repository
snapshot): one OHLC sample.  `timestamp` is integer milliseconds since
epoch; the `open` field is spelled `open_` because `open` is a Lean
keyword. -/
structure Candle where
  timestamp : Int
  open_ : Rat
  high : Rat
  low : Rat
  close : Rat
deriving DecidableEq, Repr

/-- The ordering invariant of a candle (spec §3):
`low ≤ min(open, close) ≤ max(open, close) ≤ high`. -/
def Candle.Valid (c : Candle) : Prop :=
  c.low ≤ min c.open_ c.close ∧ max c.open_ c.close ≤ c.high

instance (c : Candle) : Decidable c.Valid := by
  unfold Candle.Valid; exact inferInstance

/-- Modelled from the spec (§4.1): the validating constructor
`new(timestamp, open, high, low, close) -> Candle | ValidationError`,
enforcing the ordering invariant; failure is embedded as `none`. -/
def Candle.new (timestamp : Int) (o h l c : Rat) : Option Candle :=
  if l ≤ min o c ∧ max o c ≤ h then
    some ⟨timestamp, o, h, l, c⟩
  else
    none

/-- Derived classification of a candle (spec §3):
`Bullish` (close ≥ open) or `Bearish` (close < open). -/
inductive CandleType where
  | Bullish
  | Bearish
deriving DecidableEq, Repr

/-- Modelled from the spec: the numeric display policy ("precision/scale
used uniformly when formatting any price value into a label string";
`y_axis.rs` is not in the repository snapshot).  `scale` is the reserved
width of the integer part of a label; `precision` the number of decimal
places. -/
structure Numeric where
  scale : Nat
  precision : Nat
deriving DecidableEq, Repr

/-- Modelled from the spec: `Numeric::default()`.  The defaults reproduce
the label shape of the repository's own render tests (`"     3.000 ├ "`:
integer field width 6, three decimals). -/
def Numeric.default : Numeric := ⟨6, 3⟩

/-- Left-pad a string with a fill character up to a target width. -/
def padLeftStr (s : String) (c : Char) (w : Nat) : String :=
  String.mk (List.replicate (w - s.length) c) ++ s

/-- Decimal digit count, by fuelled structural recursion (the fuel is an
upper bound on the digit count; callers pass the number itself). -/
def digitCountAux : Nat → Nat → Nat
  | 0, _ => 1
  | fuel + 1, n => if n < 10 then 1 else digitCountAux fuel (n / 10) + 1

/-- The floor of a rational, computed directly as the floor division of
numerator by denominator. -/
def ratFloor (v : Rat) : Int := v.num.fdiv (v.den : Int)

/-- Number of decimal digits of the integer part of a rational. -/
def intDigits (v : Rat) : Nat :=
  digitCountAux (ratFloor v).natAbs (ratFloor v).natAbs

/-- Modelled from the spec (§4.2): fixed-precision decimal rendering of a
price value per the configured scale, truncating the fractional part. -/
def Numeric.format (n : Numeric) (v : Rat) : String :=
  let neg := v < 0
  let a := if neg then -v else v
  let t := (ratFloor (a * ((10 : Rat) ^ n.precision))).natAbs
  let ip := t / 10 ^ n.precision
  let fp := t % 10 ^ n.precision
  (if neg then "-" else "") ++ toString ip ++ "." ++
    padLeftStr (toString fp) '0' n.precision

/-- The symbol table, from `src/symbols.rs`. -/
def UNICODE_VOID : String := " "

def UNICODE_BODY : String := "┃"

def UNICODE_WICK : String := "│"

def UNICODE_HALF_BODY_BOTTOM : String := "╻"

def UNICODE_HALF_WICK_BOTTOM : String := "╷"

def UNICODE_HALF_BODY_TOP : String := "╹"

def UNICODE_HALF_WICK_TOP : String := "╵"

def UNICODE_LEFT_HALF_BLOCK : String := "▌"

def UNICODE_RIGHT_HALF_BLOCK : String := "▐"

def UNICODE_LEFT_EIGHTH_BLOCK : String := "▏"

def UNICODE_RIGHT_EIGHTH_BLOCK : String := "▕"

def UNICODE_FULL_BLOCK : String := "█"

/-- Modelled from the spec (§4.3, `y_axis.rs` is not in the repository
snapshot): the y-axis value, holding its numeric policy, the number of
chart rows, and the visible price range. -/
structure YAxis where
  numeric : Numeric
  height : Nat
  price_min : Rat
  price_max : Rat
deriving DecidableEq, Repr

/-- Modelled from the spec (§4.3):
`new(numeric, available_rows, price_min, price_max) -> YAxis`. -/
def YAxis.new (numeric : Numeric) (height : Nat) (price_min price_max : Rat) :
    YAxis :=
  ⟨numeric, height, price_min, price_max⟩

/-- Modelled from the spec (§4.2): `estimated_width(numeric, min, max)`,
"the maximum label width needed to display any value in `[min, max]` at the
configured precision, used to reserve y-axis gutter width".  A label is the
integer part (at least `scale` columns), the decimal point, `precision`
decimals, and the 3-column tick decoration (as in the repository tests,
where `"     3.000 ├ "` occupies 13 columns under the default policy). -/
def YAxis.estimated_width (n : Numeric) (pmin pmax : Rat) : Nat :=
  max (max (intDigits pmin) (intDigits pmax)) n.scale + 1 + n.precision + 3

/-- Modelled from the spec (§4.3): the price span of one character row;
degenerate (span 1) when `price_min == price_max` ("fails gracefully"). -/
def YAxis.unit (ya : YAxis) : Rat :=
  if ya.price_max ≤ ya.price_min ∨ ya.height = 0 then 1
  else (ya.price_max - ya.price_min) / (ya.height : Rat)

/-- Modelled from the spec (§4.3): `render()` produces one label string per
row, tick rows carrying the linearly interpolated price (a tick every
fourth row; the repository tests show ticks at rows 0 and 4 of a 5-row
axis, the "linear quarter-step" of the spec's scenario), monotonically
decreasing top to bottom. -/
def YAxis.render (ya : YAxis) : List String :=
  (List.range ya.height).map fun (r : Nat) =>
    if r % 4 = 0 then
      padLeftStr (ya.numeric.format (ya.price_max - (r : Rat) * ya.unit)) ' '
        (ya.numeric.scale + 1 + ya.numeric.precision) ++ " ├ "
    else
      padLeftStr "" ' ' (ya.numeric.scale + 1 + ya.numeric.precision) ++ " │ "

/-- Modelled from the spec (§4.4, `x_axis.rs` is not in the repository
snapshot): the x-axis value. -/
structure XAxis where
  width : Nat
  timestamp_min : Int
  timestamp_max : Int
  interval : Interval
  is_live : Bool
deriving DecidableEq, Repr

/-- Modelled from the spec (§4.4):
`new(width, timestamp_min, timestamp_max, interval, is_live) -> XAxis`. -/
def XAxis.new (width : Nat) (timestamp_min timestamp_max : Int)
    (interval : Interval) (is_live : Bool) : XAxis :=
  ⟨width, timestamp_min, timestamp_max, interval, is_live⟩

/-- Two-digit, zero-padded decimal rendering of a number below 100. -/
def twoDigits (n : Nat) : String := padLeftStr (toString n) '0' 2

/-- Modelled from the spec (§4.4): `render(display_offset)` produces a
ruler row of tick marks and a label row with the formatted time of the
live edge, shifted into the display offset (given in seconds) and marked
with a leading `*` when the view is live.  The full calendar-date
formatting of the source is abstracted to an `HH:MM` clock label; no claim
inspects the label text. -/
def XAxis.render (xa : XAxis) (displayOffset : Int) : List String :=
  let t := xa.timestamp_max + displayOffset * 1000
  let label := (if xa.is_live then "*" else " ") ++
    twoDigits ((t / 3600000) % 24).toNat ++ ":" ++
    twoDigits ((t / 60000) % 60).toNat
  [String.mk (List.replicate (xa.width - 1) '─') ++ "┴", label]

/-- Modelled from the spec (§3 "Chart Info / State",
`candlestick_chart_state.rs` is not in the repository snapshot): the
window-boundary snapshot published into the caller-owned state once per
render.  The field order matches the `CandleStikcChartInfo::new` call in
`render` (earliest column timestamp, last placeholder timestamp, interval,
last real-data timestamp, scrolled-past-start flag). -/
structure CandleStikcChartInfo where
  earliest_timestamp : Int
  latest_timestamp : Int
  interval : Interval
  last_timestamp : Int
  scrolled_past_start : Bool
deriving DecidableEq, Repr

/-- Modelled from the spec: constructor of the info snapshot. -/
def CandleStikcChartInfo.new (earliest latest : Int) (interval : Interval)
    (last : Int) (scrolled : Bool) : CandleStikcChartInfo :=
  ⟨earliest, latest, interval, last, scrolled⟩

/-- Modelled from the spec (§3, §6): the caller-owned state, holding the
optional pinned cursor timestamp (`none` = tracking the live edge) and the
last published window info. -/
structure CandleStickChartState where
  cursor_timestamp : Option Int := none
  info : Option CandleStikcChartInfo := none
deriving DecidableEq, Repr

/-- Modelled from the spec: `set_info`, the once-per-render publication of
the window snapshot into the caller-owned state. -/
def CandleStickChartState.set_info (st : CandleStickChartState)
    (i : CandleStikcChartInfo) : CandleStickChartState :=
  { st with info := some i }

/-- Modelled from the spec (§4.1, `candle.rs` is not in the repository
snapshot): `render(y_axis)` produces one glyph per character row for a
single-column candle.  Row `r` covers the price band
`[max - (r+1)*unit, max - r*unit]`; a row fully covered by the open–close
span is a body glyph, a half-covered one a half-body cap, rows reached
only by the high–low span get (half-)wick glyphs, all other rows are void.
The classification is returned alongside (its concrete pairing is
irrelevant to every claim; the caller discards it). -/
def Candle.render (c : Candle) (ya : YAxis) : CandleType × List String :=
  let bodyTop := max c.open_ c.close
  let bodyBot := min c.open_ c.close
  let ty := if c.open_ ≤ c.close then CandleType.Bullish else CandleType.Bearish
  (ty, (List.range ya.height).map fun (r : Nat) =>
    let hi := ya.price_max - (r : Rat) * ya.unit
    let lo := ya.price_max - ((r : Rat) + 1) * ya.unit
    let mid := (hi + lo) / 2
    if bodyBot ≤ lo ∧ hi ≤ bodyTop then UNICODE_BODY
    else if bodyBot ≤ mid ∧ hi ≤ bodyTop then UNICODE_HALF_BODY_TOP
    else if bodyBot ≤ lo ∧ mid ≤ bodyTop then UNICODE_HALF_BODY_BOTTOM
    else if bodyBot < hi ∧ lo < bodyTop then
      (if mid ≤ bodyBot then UNICODE_HALF_BODY_TOP else UNICODE_HALF_BODY_BOTTOM)
    else if c.low ≤ lo ∧ hi ≤ c.high then UNICODE_WICK
    else if c.low ≤ mid ∧ hi ≤ c.high then UNICODE_HALF_WICK_TOP
    else if c.low ≤ lo ∧ mid ≤ c.high then UNICODE_HALF_WICK_BOTTOM
    else if c.low < hi ∧ lo < c.high then
      (if mid ≤ c.low then UNICODE_HALF_WICK_TOP else UNICODE_HALF_WICK_BOTTOM)
    else UNICODE_VOID)

/-- Modelled from the spec (§4.1): `render_stretched(y_axis, width)` — the
same vertical logic replicated horizontally across `width` columns, with
eighth-block glyphs on the body's leftmost and rightmost column. -/
def Candle.render_stretched (c : Candle) (ya : YAxis) (w : Nat) :
    CandleType × List (List String) :=
  let r := c.render ya
  (r.1, r.2.map fun g =>
    if w ≤ 1 then [g]
    else if g = UNICODE_BODY then
      UNICODE_LEFT_EIGHTH_BLOCK ::
        (List.replicate (w - 2) g ++ [UNICODE_RIGHT_EIGHTH_BLOCK])
    else List.replicate w g)

/-- The two chart fitting modes (`src/candlestick_chart.rs`). -/
inductive ChartFitMode where
  | Fixed
  | Fit
deriving DecidableEq, Repr

/-- The chart widget configuration (`src/candlestick_chart.rs`).
`display_timezone` is the `FixedOffset`, embedded as its offset in
seconds (`Utc.fix()` is 0). -/
structure CandleStickChart where
  interval : Interval
  candles : List Candle
  numeric : Numeric
  style : Style
  bearish_color : Color
  bullish_color : Color
  bearish_wick_color : Color
  bullish_wick_color : Color
  display_timezone : Int
  show_y_axis : Bool
  show_x_axis : Bool
  fit_mode : ChartFitMode
deriving DecidableEq, Repr

/-- `CandleStickChart::new(interval)` (`src/candlestick_chart.rs`). -/
def CandleStickChart.new (interval : Interval) : CandleStickChart where
  interval := interval
  candles := []
  numeric := Numeric.default
  style := {}
  bearish_color := .rgb 234 74 90
  bullish_color := .rgb 52 208 88
  bearish_wick_color := .rgb 234 74 90
  bullish_wick_color := .rgb 52 208 88
  display_timezone := 0
  show_y_axis := true
  show_x_axis := true
  fit_mode := .Fixed

/-- Builder `candles(...)` (named apart since the field has the name). -/
def CandleStickChart.set_candles (c : CandleStickChart) (cs : List Candle) :
    CandleStickChart :=
  { c with candles := cs }

/-- Builder `y_axis_numeric(...)`. -/
def CandleStickChart.y_axis_numeric (c : CandleStickChart) (n : Numeric) :
    CandleStickChart :=
  { c with numeric := n }

/-- Builder `fit_mode(...)` (named apart since the field has the name). -/
def CandleStickChart.set_fit_mode (c : CandleStickChart) (m : ChartFitMode) :
    CandleStickChart :=
  { c with fit_mode := m }

/-- Builder `show_y_axis(...)` (named apart since the field has the name). -/
def CandleStickChart.set_show_y_axis (c : CandleStickChart) (b : Bool) :
    CandleStickChart :=
  { c with show_y_axis := b }

/-- Builder `show_x_axis(...)` (named apart since the field has the name). -/
def CandleStickChart.set_show_x_axis (c : CandleStickChart) (b : Bool) :
    CandleStickChart :=
  { c with show_x_axis := b }

/-- The viewport geometry (`ratatui::Rect`): a rectangular character-cell
region. -/
structure Rect where
  x : Nat
  y : Nat
  width : Nat
  height : Nat
deriving DecidableEq, Repr

/-- One write into the host grid: either a `set_string` call or a single
styled cell write through `cell_mut`. -/
inductive BufWrite where
  | str (x y : Nat) (s : String)
  | cell (x y : Nat) (sym : String) (fg : Color)
deriving DecidableEq, Repr

/-- The column of a grid write. -/
def BufWrite.xPos : BufWrite → Nat
  | .str x _ _ => x
  | .cell x _ _ _ => x

/-- An all-zero candle value, used only as the default of `headD`-style
total projections at places the source guards with `unwrap` on provably
nonempty lists. -/
def defaultCandle : Candle := ⟨0, 0, 0, 0, 0⟩

/-- A zero-valued placeholder candle synthesized at the series edges
(`Candle::new(ts, 0., 0., 0., 0.).unwrap()` in `render`; the lemma
`Candle.new_placeholder` discharges the `unwrap`). -/
def placeholderCandle (ts : Int) : Candle := ⟨ts, 0, 0, 0, 0⟩

theorem Candle.new_placeholder (ts : Int) :
    Candle.new ts 0 0 0 0 = some (placeholderCandle ts) := by
  unfold Candle.new placeholderCandle
  rw [if_pos]
  exact ⟨by simp, by simp⟩

/-- `.iter().map(f).min()` over a candle list. -/
def foldlMin (f : Candle → Rat) : List Candle → Option Rat
  | [] => none
  | x :: xs => some (xs.foldl (fun a y => min a (f y)) (f x))

/-- `.iter().map(f).max()` over a candle list. -/
def foldlMax (f : Candle → Rat) : List Candle → Option Rat
  | [] => none
  | x :: xs => some (xs.foldl (fun a y => max a (f y)) (f x))

/-- `render` line 164: `global_min`, the minimum of all lows (0 when the
series is empty, a case the guard removes before use). -/
def CandleStickChart.global_min (c : CandleStickChart) : Rat :=
  (foldlMin Candle.low c.candles).getD 0

/-- `render` line 165: `global_max`, the maximum of all highs. -/
def CandleStickChart.global_max (c : CandleStickChart) : Rat :=
  (foldlMax Candle.high c.candles).getD 0

/-- `render` lines 167–171: the reserved y-axis gutter width. -/
def CandleStickChart.y_axis_width (c : CandleStickChart) : Nat :=
  if c.show_y_axis then
    YAxis.estimated_width c.numeric c.global_min c.global_max
  else 0

/-- `render` line 172: the reserved x-axis row count. -/
def CandleStickChart.x_axis_height (c : CandleStickChart) : Nat :=
  if c.show_x_axis then 3 else 0

/-- `render` lines 160–176: the degenerate-geometry guard — empty series,
or viewport not strictly larger than the reserved gutters. -/
def CandleStickChart.guard (c : CandleStickChart) (area : Rect) : Prop :=
  c.candles = [] ∨ area.width ≤ c.y_axis_width ∨ area.height ≤ c.x_axis_height

instance (c : CandleStickChart) (area : Rect) : Decidable (c.guard area) := by
  unfold CandleStickChart.guard; exact inferInstance

/-- `render` line 178: the chart data width. -/
def CandleStickChart.chart_width (c : CandleStickChart) (area : Rect) : Nat :=
  area.width - c.y_axis_width

/-- `render` line 182: the first real candle's timestamp. -/
def CandleStickChart.first_timestamp (c : CandleStickChart) : Int :=
  (c.candles.headD defaultCandle).timestamp

/-- `render` line 183: the last real candle's timestamp. -/
def CandleStickChart.last_timestamp (c : CandleStickChart) : Int :=
  (c.candles.getLastD defaultCandle).timestamp

/-- `render` lines 185–210: the series extended with `chart_width - 1`
zero placeholders before the first and after the last real candle, one
interval apart.  The descending loop `for i in (1..=(cw-1)).rev()` pushes
the placeholder `cw - 1` intervals before `first_timestamp` first. -/
def CandleStickChart.paddedCandles (c : CandleStickChart) (cw : Nat) :
    List Candle :=
  ((List.range (cw - 1)).map fun j =>
    placeholderCandle (c.first_timestamp - ((cw - 1 - j : Nat) : Int) * c.interval.ms)) ++
  c.candles ++
  ((List.range (cw - 1)).map fun j =>
    placeholderCandle (c.last_timestamp + ((j + 1 : Nat) : Int) * c.interval.ms))

/-- `render` line 212: the window end — the pinned cursor when present,
else the last real timestamp. -/
def CandleStickChart.chart_end_timestamp (c : CandleStickChart)
    (st : CandleStickChartState) : Int :=
  st.cursor_timestamp.getD c.last_timestamp

/-- `render` lines 213–214: the window start,
`end - interval_ms * (chart_width - 1)`. -/
def CandleStickChart.chart_start_timestamp (c : CandleStickChart)
    (area : Rect) (st : CandleStickChartState) : Int :=
  c.chart_end_timestamp st - c.interval.ms * ((c.chart_width area - 1 : Nat) : Int)

/-- `render` lines 215–218: the rendered set — every padded candle whose
timestamp lies in `[chart_start, chart_end]`, in series order. -/
def CandleStickChart.rendered_candles (c : CandleStickChart) (area : Rect)
    (st : CandleStickChartState) : List Candle :=
  (c.paddedCandles (c.chart_width area)).filter fun x =>
    decide (c.chart_start_timestamp area st ≤ x.timestamp) &&
      decide (x.timestamp ≤ c.chart_end_timestamp st)

/-- `render` lines 220–226: the info snapshot published into the
caller-owned state.  The source reads `rendered_candles.first().unwrap()`;
`render` below only evaluates this after establishing the rendered set is
nonempty, so the `headD` default is never observed. -/
def CandleStickChart.chart_info (c : CandleStickChart) (area : Rect)
    (st : CandleStickChartState) : CandleStikcChartInfo :=
  let padded := c.paddedCandles (c.chart_width area)
  CandleStikcChartInfo.new
    ((padded.getD (c.chart_width area - 1) defaultCandle).timestamp)
    ((padded.getLastD defaultCandle).timestamp)
    c.interval
    c.last_timestamp
    (decide (((c.rendered_candles area st).headD defaultCandle).timestamp <
      c.first_timestamp))

/-- `render` lines 228–239 (filter): the rendered candles inside the real
data span `[first_timestamp, last_timestamp]` — the squash/stretch and
Fixed-mode branches recompute exactly this list at lines 277–287. -/
def CandleStickChart.data_candles (c : CandleStickChart) (area : Rect)
    (st : CandleStickChartState) : List Candle :=
  (c.rendered_candles area st).filter fun x =>
    decide (c.first_timestamp ≤ x.timestamp) &&
      decide (x.timestamp ≤ c.last_timestamp)

/-- `render` lines 228–233: `y_min`, the `.min().unwrap()` whose `none`
case is the panic the source would hit. -/
def CandleStickChart.y_min (c : CandleStickChart) (area : Rect)
    (st : CandleStickChartState) : Option Rat :=
  foldlMin Candle.low (c.data_candles area st)

/-- `render` lines 234–239: `y_max`. -/
def CandleStickChart.y_max (c : CandleStickChart) (area : Rect)
    (st : CandleStickChartState) : Option Rat :=
  foldlMax Candle.high (c.data_candles area st)

/-- `render` line 241: the y-axis used for drawing, built with
`Numeric::default()` (not with the configured `self.numeric`). -/
def CandleStickChart.y_axis (c : CandleStickChart) (area : Rect)
    (st : CandleStickChartState) : YAxis :=
  YAxis.new Numeric.default (area.height - c.x_axis_height)
    ((c.y_min area st).getD 0) ((c.y_max area st).getD 0)

/-- `render` line 293: the squash group size, the ceiling division
`(len + chart_width - 1) / chart_width`. -/
def CandleStickChart.squash_group_size (c : CandleStickChart) (area : Rect)
    (st : CandleStickChartState) : Nat :=
  ((c.data_candles area st).length + c.chart_width area - 1) / c.chart_width area

/-- `data_candles.chunks(k)`: consecutive groups of `k` candles, the last
possibly shorter. -/
def chunksOf (k : Nat) : List Candle → List (List Candle)
  | [] => []
  | x :: xs => (x :: xs.take (k - 1)) :: chunksOf k (xs.drop (k - 1))
termination_by l => l.length
decreasing_by
  simp only [List.length_drop, List.length_cons]
  omega

/-- `render` lines 296–308: merge one chunk into a synthetic candle —
first open, max high, min low, last close, first timestamp — through the
validating constructor (`none` embeds the `unwrap` panic). -/
def mergeChunk : List Candle → Option Candle
  | [] => none
  | c :: rest =>
    Candle.new c.timestamp c.open_
      (rest.foldl (fun a x => max a x.high) c.high)
      (rest.foldl (fun a x => min a x.low) c.low)
      ((rest.getLastD c).close)

/-- The squash loop over all chunks (empty chunks are skipped, mirroring
the `if !chunk.is_empty()` test); `none` if any merge `unwrap` fails. -/
def mergeAll : List (List Candle) → Option (List Candle)
  | [] => some []
  | [] :: rest => mergeAll rest
  | (c :: cs) :: rest =>
    match mergeChunk (c :: cs), mergeAll rest with
    | some m, some ms => some (m :: ms)
    | _, _ => none

/-- `render` lines 275–320: the processed candle list of the fit-mode
layout — real candles in Fixed mode, and in Fit mode either the list
itself (stretch), or the squash-merged list (`none` embedding a merge
panic). -/
def CandleStickChart.processed_candles (c : CandleStickChart) (area : Rect)
    (st : CandleStickChartState) : Option (List Candle) :=
  match c.fit_mode with
  | .Fixed => some (c.data_candles area st)
  | .Fit =>
    let d := c.data_candles area st
    if d.isEmpty then some d
    else if c.chart_width area < d.length then
      mergeAll (chunksOf (c.squash_group_size area st) d)
    else some d

/-- `render` lines 275–320: the per-candle column width of the layout
(`max(1, chart_width / count)` in the stretch branch, 1 elsewhere). -/
def CandleStickChart.candle_width (c : CandleStickChart) (area : Rect)
    (st : CandleStickChartState) : Nat :=
  match c.fit_mode with
  | .Fixed => 1
  | .Fit =>
    let d := c.data_candles area st
    if d.isEmpty then 1
    else if c.chart_width area < d.length then 1
    else max 1 (c.chart_width area / d.length)

/-- `render` lines 275–320: the leftover columns of the stretch branch
(`chart_width - base_width * count`, saturating), 0 elsewhere. -/
def CandleStickChart.extra_spaces (c : CandleStickChart) (area : Rect)
    (st : CandleStickChartState) : Nat :=
  match c.fit_mode with
  | .Fixed => 0
  | .Fit =>
    let d := c.data_candles area st
    if d.isEmpty then 0
    else if c.chart_width area < d.length then 0
    else c.chart_width area - max 1 (c.chart_width area / d.length) * d.length

/-- `render` line 332: the gap index receiving the `i`-th extra space,
`((i as f64 + 0.5) * gaps as f64 / extra as f64) as usize`.  For the
`u16`-bounded values reachable here the float product is exactly
representable and the quotient's rounding error is far smaller than its
distance to the nearest integer, so the truncation equals this exact
natural-number floor `((2*i + 1) * gaps) / (2 * extra)`. -/
def gapPosition (i gaps extra : Nat) : Nat :=
  ((2 * i + 1) * gaps) / (2 * extra)

/-- `render` lines 326–338: the boolean gap-marking array — position `p`
is marked when some `i < extra` (with the source's `i < gaps` and
`position < len - 1` checks) lands on it. -/
def spacePositions (len extra : Nat) : List Bool :=
  if 0 < extra ∧ 1 < len then
    (List.range len).map fun p =>
      decide (p + 1 < len) &&
        (List.range extra).any fun i =>
          decide (i < len - 1) && decide (gapPosition i (len - 1) extra = p)
  else List.replicate len false

/-- The gap-marking array of the current layout. -/
def CandleStickChart.space_positions (c : CandleStickChart) (area : Rect)
    (st : CandleStickChartState) : List Bool :=
  spacePositions ((c.processed_candles area st).getD []).length
    (c.extra_spaces area st)

/-- `render` line 358: the wick glyphs of the single-column path. -/
def isWickGlyph (g : String) : Bool :=
  g == UNICODE_WICK || g == UNICODE_HALF_WICK_BOTTOM || g == UNICODE_HALF_WICK_TOP

/-- `render` line 379: the wick glyphs of the stretched path. -/
def isWickGlyphStretched (g : String) : Bool :=
  g == UNICODE_WICK || g == UNICODE_RIGHT_EIGHTH_BLOCK ||
    g == UNICODE_LEFT_EIGHTH_BLOCK || g == UNICODE_HALF_WICK_BOTTOM ||
    g == UNICODE_HALF_WICK_TOP

/-- `render` lines 340–397: the per-candle compositing loop.  `idx` is
`candle_index`, `xOff` is `current_x_offset`; a cell write is emitted when
`cell_x` is inside the area and `cell_mut` succeeds (the buffer region is
the render area, as in the repository's tests). -/
def drawCandles (chart : CandleStickChart) (area : Rect) (ya : YAxis)
    (yw cw extra : Nat) (spos : List Bool) :
    Nat → Nat → List Candle → List BufWrite
  | _, _, [] => []
  | idx, xOff, c :: rest =>
    let ty := if c.open_ ≤ c.close then CandleType.Bullish else CandleType.Bearish
    let colors := match ty with
      | .Bearish => (chart.bearish_color, chart.bearish_wick_color)
      | .Bullish => (chart.bullish_color, chart.bullish_wick_color)
    if cw = 1 ∧ extra = 0 then
      ((c.render ya).2.enum.filterMap fun p =>
        let cellX := idx + yw + area.x
        let cellY := p.1 + area.y
        if cellX < area.x + area.width ∧ cellY < area.y + area.height then
          some (BufWrite.cell cellX cellY p.2
            (if isWickGlyph p.2 then colors.2 else colors.1))
        else none) ++
      drawCandles chart area ya yw cw extra spos (idx + 1) xOff rest
    else
      let rows := (c.render_stretched ya (if 1 < cw then cw else 1)).2
      (rows.enum.flatMap fun p =>
        p.2.enum.filterMap fun q =>
          let cellX := xOff + q.1 + yw + area.x
          let cellY := p.1 + area.y
          if cellX < area.x + area.width ∧ cellY < area.y + area.height then
            some (BufWrite.cell cellX cellY q.2
              (if isWickGlyphStretched q.2 then colors.2 else colors.1))
          else none) ++
      drawCandles chart area ya yw cw extra spos (idx + 1)
        (xOff + cw + (if spos.getD idx false then 1 else 0)) rest

/-- `render` lines 242–247: the y-axis gutter writes. -/
def CandleStickChart.y_axis_writes (c : CandleStickChart) (area : Rect)
    (st : CandleStickChartState) : List BufWrite :=
  if c.show_y_axis then
    ((c.y_axis area st).render).enum.map fun p =>
      BufWrite.str area.x (p.1 + area.y) p.2
  else []

/-- `render` lines 249–272: the x-axis writes (corner joint plus the
rendered ruler rows). -/
def CandleStickChart.x_axis_writes (c : CandleStickChart) (area : Rect)
    (st : CandleStickChartState) : List BufWrite :=
  if c.show_x_axis then
    let rendered := c.rendered_candles area st
    let xa := XAxis.new (c.chart_width area)
      ((rendered.headD defaultCandle).timestamp)
      ((rendered.getLastD defaultCandle).timestamp)
      c.interval st.cursor_timestamp.isNone
    let rows := xa.render c.display_timezone
    (if c.show_y_axis then
      [BufWrite.str (area.x + c.y_axis_width - 2) (area.y + area.height - 3) "└──"]
    else []) ++
    rows.enum.map fun p =>
      BufWrite.str (area.x + c.y_axis_width) (area.y + area.height - 3 + p.1) p.2
  else []

/-- `render` lines 322–397 assembled: the candle compositing writes. -/
def CandleStickChart.candle_writes (c : CandleStickChart) (area : Rect)
    (st : CandleStickChartState) : List BufWrite :=
  drawCandles c area (c.y_axis area st) c.y_axis_width
    (c.candle_width area st) (c.extra_spaces area st)
    (c.space_positions area st) 0 0 ((c.processed_candles area st).getD [])

/-- The observable outcome of one `render` call: the ordered grid writes,
the state after the call, whether an `unwrap` panic was hit (writes and
state then reflect what happened before the panic), and whether the
degenerate-geometry guard exited. -/
structure RenderResult where
  writes : List BufWrite
  state : CandleStickChartState
  panicked : Bool
  guard_exit : Bool
deriving DecidableEq, Repr

/-- `StatefulWidget::render` (`src/candlestick_chart.rs` lines 159–398):
guard, window selection, state publication, visible range, axis emission,
fit-mode layout, compositing — with each `unwrap` panic site embedded as
an early exit that keeps the writes and state mutations made before it. -/
def CandleStickChart.render (c : CandleStickChart) (area : Rect)
    (st : CandleStickChartState) : RenderResult :=
  if c.guard area then ⟨[], st, false, true⟩
  else
    match c.rendered_candles area st with
    | [] => ⟨[], st, true, false⟩
    | _ :: _ =>
      let st1 := st.set_info (c.chart_info area st)
      match c.y_min area st, c.y_max area st with
      | some _, some _ =>
        let axisWrites := c.y_axis_writes area st ++ c.x_axis_writes area st
        match c.processed_candles area st with
        | none => ⟨axisWrites, st1, true, false⟩
        | some _ => ⟨axisWrites ++ c.candle_writes area st, st1, false, false⟩
      | _, _ => ⟨[], st1, true, false⟩

/-! ## Shared concrete inputs for witnesses and counterexamples -/

/-- The cleared (default) caller state. -/
def st0 : CandleStickChartState := {}

/-! ## C10 — default configuration -/

/-- C10: for every interval, `CandleStickChart::new` yields wick colors
equal to the corresponding body colors, both axes shown, and Fixed fit
mode. -/
theorem new_default_config (i : Interval) :
    (CandleStickChart.new i).bullish_wick_color =
      (CandleStickChart.new i).bullish_color ∧
    (CandleStickChart.new i).bearish_wick_color =
      (CandleStickChart.new i).bearish_color ∧
    (CandleStickChart.new i).show_y_axis = true ∧
    (CandleStickChart.new i).show_x_axis = true ∧
    (CandleStickChart.new i).fit_mode = ChartFitMode.Fixed :=
  ⟨rfl, rfl, rfl, rfl, rfl⟩

/-! ## C2 — degenerate-geometry guard performs no writes -/

/-- C2: if the series is empty, or the viewport is smaller than the
reserved y-axis gutter width or the x-axis row reservation, `render`
performs no grid writes at all and leaves the caller state untouched. -/
theorem render_guard_no_writes (c : CandleStickChart) (area : Rect)
    (st : CandleStickChartState)
    (h : c.candles = [] ∨ area.width < c.y_axis_width ∨
      area.height < c.x_axis_height) :
    (c.render area st).writes = [] ∧ (c.render area st).state = st := by
  have hg : c.guard area := by
    rcases h with h | h | h
    · exact Or.inl h
    · exact Or.inr (Or.inl (le_of_lt h))
    · exact Or.inr (Or.inr (le_of_lt h))
  unfold CandleStickChart.render
  rw [if_pos hg]
  exact ⟨rfl, rfl⟩

/-- Witness for C2: the empty-series chart on a 14×8 viewport renders
nothing. -/
theorem render_guard_no_writes_witness :
    (CandleStickChart.new .OneMinute).candles = [] ∧
    (((CandleStickChart.new .OneMinute).render ⟨0, 0, 14, 8⟩ st0).writes = [] ∧
      ((CandleStickChart.new .OneMinute).render ⟨0, 0, 14, 8⟩ st0).state = st0) :=
  ⟨rfl, render_guard_no_writes (CandleStickChart.new .OneMinute) ⟨0, 0, 14, 8⟩ st0
    (Or.inl rfl)⟩

/-! ## C7 — numeric policy used for the gutter vs for the y-axis -/

/-- A chart whose numeric display policy was configured away from the
default through the `y_axis_numeric` builder. -/
def chartC7 : CandleStickChart :=
  ((CandleStickChart.new .OneMinute).set_candles
    [⟨0, 1, 3, 0, 2⟩]).y_axis_numeric ⟨2, 1⟩

/-- The 14×8 viewport of the repository's `simple_candle` test. -/
def areaC7 : Rect := ⟨0, 0, 14, 8⟩

/-- C7 (code bug evidence): the y-axis gutter is sized from the
configured numeric policy, but the y-axis actually built at render time
carries `Numeric::default()` instead — the two disagree as soon as the
caller configures a non-default policy, and the resulting gutter widths
differ observably. -/
theorem y_axis_built_with_default_numeric :
    (chartC7.y_axis areaC7 st0).numeric = Numeric.default ∧
    chartC7.numeric = ⟨2, 1⟩ ∧
    (⟨2, 1⟩ : Numeric) ≠ Numeric.default ∧
    chartC7.y_axis_width =
      YAxis.estimated_width chartC7.numeric chartC7.global_min chartC7.global_max ∧
    YAxis.estimated_width chartC7.numeric chartC7.global_min chartC7.global_max ≠
      YAxis.estimated_width Numeric.default chartC7.global_min chartC7.global_max := by
  refine ⟨rfl, rfl, by decide, rfl, by decide⟩

/-! ## C8 — Fixed-mode drawing columns -/

/-- Two real candles one window-gap apart (timestamps 0 and 240000 with a
one-minute interval), axes hidden so the data area starts at column 0. -/
def chartC8 : CandleStickChart :=
  (((CandleStickChart.new .OneMinute).set_candles
    [⟨0, 1, 3, 0, 2⟩, ⟨240000, 2, 6, 1, 4⟩]).set_show_y_axis
      false).set_show_x_axis false

/-- A 6×5 viewport: six data columns, window `[-60000, 240000]`. -/
def areaC8 : Rect := ⟨0, 0, 6, 5⟩

/-- C8 (code bug evidence): in Fixed mode the render completes and draws
exactly the two real candles, but every write lands in columns 0 and 1 —
the k-th real candle is drawn at data column k — whereas the candle at
timestamp 240000 sits at window slot `(240000 - (-60000)) / 60000 = 5`,
the column the claim (and the repository's own buffer tests) place it
in.  The gap in the series collapses instead of appearing as empty
columns. -/
theorem fixed_mode_draws_consecutive_columns :
    (chartC8.render areaC8 st0).panicked = false ∧
    (chartC8.render areaC8 st0).writes ≠ [] ∧
    (∀ w ∈ (chartC8.render areaC8 st0).writes, w.xPos ≤ 1) ∧
    (chartC8.data_candles areaC8 st0).map Candle.timestamp = [0, 240000] ∧
    chartC8.chart_start_timestamp areaC8 st0 = -60000 ∧
    (240000 - chartC8.chart_start_timestamp areaC8 st0) / chartC8.interval.ms = 5 := by
  refine ⟨rfl, by decide, by decide, by decide, by decide, by decide⟩

/-! ## Helper lemmas -/

theorem getLastD_eq_getLast {α : Type} (l : List α) (h : l ≠ []) (d : α) :
    l.getLastD d = l.getLast h := by
  rw [List.getLastD_eq_getLast?, List.getLast?_eq_getLast l h]
  rfl

theorem foldl_min_le_init (f : Candle → Rat) (l : List Candle) (a : Rat) :
    l.foldl (fun b x => min b (f x)) a ≤ a := by
  induction l generalizing a with
  | nil => simp
  | cons x xs ih =>
    simp only [List.foldl_cons]
    exact le_trans (ih (min a (f x))) (min_le_left _ _)

theorem foldl_min_le_mem (f : Candle → Rat) {l : List Candle} {x : Candle}
    (hx : x ∈ l) : ∀ a, l.foldl (fun b y => min b (f y)) a ≤ f x := by
  induction l with
  | nil => cases hx
  | cons y ys ih =>
    intro a
    simp only [List.foldl_cons]
    rcases List.mem_cons.mp hx with h | h
    · subst h
      exact le_trans (foldl_min_le_init f ys _) (min_le_right _ _)
    · exact ih h _

theorem le_foldl_max_init (f : Candle → Rat) (l : List Candle) (a : Rat) :
    a ≤ l.foldl (fun b x => max b (f x)) a := by
  induction l generalizing a with
  | nil => simp
  | cons x xs ih =>
    simp only [List.foldl_cons]
    exact le_trans (le_max_left _ _) (ih (max a (f x)))

theorem le_foldl_max_mem (f : Candle → Rat) {l : List Candle} {x : Candle}
    (hx : x ∈ l) : ∀ a, f x ≤ l.foldl (fun b y => max b (f y)) a := by
  induction l with
  | nil => cases hx
  | cons y ys ih =>
    intro a
    simp only [List.foldl_cons]
    rcases List.mem_cons.mp hx with h | h
    · subst h
      exact le_trans (le_max_right _ _) (le_foldl_max_init f ys _)
    · exact ih h _

theorem foldl_min_mem (f : Candle → Rat) (l : List Candle) (c : Candle) :
    l.foldl (fun a x => min a (f x)) (f c) ∈ (c :: l).map f := by
  induction l generalizing c with
  | nil => simp
  | cons y ys ih =>
    simp only [List.foldl_cons]
    rcases min_choice (f c) (f y) with h | h
    · rw [h]
      have := ih c
      simp only [List.map_cons, List.mem_cons] at this ⊢
      tauto
    · rw [h]
      have := ih y
      simp only [List.map_cons, List.mem_cons] at this ⊢
      tauto

theorem foldl_max_mem (f : Candle → Rat) (l : List Candle) (c : Candle) :
    l.foldl (fun a x => max a (f x)) (f c) ∈ (c :: l).map f := by
  induction l generalizing c with
  | nil => simp
  | cons y ys ih =>
    simp only [List.foldl_cons]
    rcases max_choice (f c) (f y) with h | h
    · rw [h]
      have := ih c
      simp only [List.map_cons, List.mem_cons] at this ⊢
      tauto
    · rw [h]
      have := ih y
      simp only [List.map_cons, List.mem_cons] at this ⊢
      tauto

/-! ## C3 — window selection -/

/-- C3: for a non-empty series, the window end is the pinned cursor when
present and otherwise the last real candle's timestamp, the window start
is `end - interval_ms * (data_columns - 1)`, and the rendered set is
exactly the padded (real and placeholder) candles with timestamp in
`[start, end]`, kept in series order. -/
theorem window_selection (c : CandleStickChart) (area : Rect)
    (st : CandleStickChartState) (h : c.candles ≠ []) :
    c.chart_end_timestamp st =
      st.cursor_timestamp.getD ((c.candles.getLast h).timestamp) ∧
    c.chart_start_timestamp area st =
      c.chart_end_timestamp st -
        c.interval.ms * ((c.chart_width area - 1 : Nat) : Int) ∧
    (∀ x, x ∈ c.rendered_candles area st ↔
      x ∈ c.paddedCandles (c.chart_width area) ∧
      c.chart_start_timestamp area st ≤ x.timestamp ∧
      x.timestamp ≤ c.chart_end_timestamp st) ∧
    List.Sublist (c.rendered_candles area st)
      (c.paddedCandles (c.chart_width area)) := by
  refine ⟨?_, rfl, ?_, List.filter_sublist _⟩
  · unfold CandleStickChart.chart_end_timestamp CandleStickChart.last_timestamp
    rw [getLastD_eq_getLast c.candles h]
  · intro x
    unfold CandleStickChart.rendered_candles
    simp [List.mem_filter, Bool.and_eq_true, decide_eq_true_eq, and_assoc]

/-- Two real candles a minute apart. -/
def chartC3 : CandleStickChart :=
  (CandleStickChart.new .OneMinute).set_candles
    [⟨0, 1, 3, 0, 2⟩, ⟨60000, 2, 4, 1, 3⟩]

/-- A 16×8 viewport (three data columns beside the 13-column gutter). -/
def areaC3 : Rect := ⟨0, 0, 16, 8⟩

/-- Witness for C3 at a concrete two-candle chart. -/
theorem window_selection_witness :
    chartC3.candles ≠ [] ∧
    (chartC3.chart_end_timestamp st0 =
      st0.cursor_timestamp.getD
        ((chartC3.candles.getLast (by decide)).timestamp) ∧
    chartC3.chart_start_timestamp areaC3 st0 =
      chartC3.chart_end_timestamp st0 -
        chartC3.interval.ms * ((chartC3.chart_width areaC3 - 1 : Nat) : Int) ∧
    (∀ x, x ∈ chartC3.rendered_candles areaC3 st0 ↔
      x ∈ chartC3.paddedCandles (chartC3.chart_width areaC3) ∧
      chartC3.chart_start_timestamp areaC3 st0 ≤ x.timestamp ∧
      x.timestamp ≤ chartC3.chart_end_timestamp st0) ∧
    List.Sublist (chartC3.rendered_candles areaC3 st0)
      (chartC3.paddedCandles (chartC3.chart_width areaC3))) :=
  ⟨by decide, window_selection chartC3 areaC3 st0 (by decide)⟩

/-! ## Chunking and merging lemmas -/

theorem chunksOf_cons (k : Nat) (x : Candle) (xs : List Candle) :
    chunksOf k (x :: xs) =
      (x :: xs.take (k - 1)) :: chunksOf k (xs.drop (k - 1)) := by
  simp only [chunksOf]

theorem chunksOf_flatten (k : Nat) (l : List Candle) :
    (chunksOf k l).flatten = l := by
  cases l with
  | nil => simp [chunksOf]
  | cons x xs =>
    rw [chunksOf_cons]
    simp only [List.flatten_cons, List.cons_append]
    rw [chunksOf_flatten k (xs.drop (k - 1)), List.take_append_drop]
termination_by l.length
decreasing_by
  simp only [List.length_drop, List.length_cons]
  omega

theorem mem_of_mem_chunksOf {k : Nat} {l ch : List Candle} {x : Candle}
    (hch : ch ∈ chunksOf k l) (hx : x ∈ ch) : x ∈ l := by
  rw [← chunksOf_flatten k l]
  exact List.mem_flatten.mpr ⟨ch, hch, hx⟩

theorem chunksOf_ne_nil {k : Nat} {l : List Candle} :
    ∀ ch ∈ chunksOf k l, ch ≠ [] := by
  cases l with
  | nil => simp [chunksOf]
  | cons x xs =>
    rw [chunksOf_cons]
    intro ch hch
    rcases List.mem_cons.mp hch with h | h
    · subst h; simp
    · exact chunksOf_ne_nil ch h
termination_by l.length
decreasing_by
  simp only [List.length_drop, List.length_cons]
  omega

theorem chunksOf_length_le {k : Nat} (hk : 0 < k) {l : List Candle} :
    ∀ ch ∈ chunksOf k l, ch.length ≤ k := by
  cases l with
  | nil => simp [chunksOf]
  | cons x xs =>
    rw [chunksOf_cons]
    intro ch hch
    rcases List.mem_cons.mp hch with h | h
    · subst h
      simp only [List.length_cons, List.length_take]
      omega
    · exact chunksOf_length_le hk ch h
termination_by l.length
decreasing_by
  simp only [List.length_drop, List.length_cons]
  omega

theorem chunksOf_dropLast_length {k : Nat} (hk : 0 < k) {l : List Candle} :
    ∀ ch ∈ (chunksOf k l).dropLast, ch.length = k := by
  cases l with
  | nil => simp [chunksOf]
  | cons x xs =>
    rw [chunksOf_cons]
    intro ch hch
    cases hrest : chunksOf k (xs.drop (k - 1)) with
    | nil => rw [hrest] at hch; simp at hch
    | cons c0 cs =>
      rw [hrest] at hch
      rw [List.dropLast_cons_of_ne_nil (by simp)] at hch
      rcases List.mem_cons.mp hch with h | h
      · subst h
        have hxs : k - 1 ≤ xs.length := by
          by_contra hc
          push_neg at hc
          have hnil : xs.drop (k - 1) = [] := List.drop_eq_nil_of_le (le_of_lt hc)
          rw [hnil] at hrest
          simp [chunksOf] at hrest
        simp only [List.length_cons, List.length_take]
        omega
      · have hrec := chunksOf_dropLast_length hk (l := xs.drop (k - 1))
        rw [hrest] at hrec
        exact hrec ch h
termination_by l.length
decreasing_by
  simp only [List.length_drop, List.length_cons]
  omega

theorem Candle.valid_of_new_eq_some {t : Int} {o h l cl : Rat} {m : Candle}
    (he : Candle.new t o h l cl = some m) : m.Valid := by
  unfold Candle.new at he
  split at he
  · cases he
    exact ‹_›
  · cases he

/-- The merged candle of a chunk of valid candles: the constructor
succeeds and produces first open, max high, min low, last close, first
timestamp. -/
theorem mergeChunk_eq_of_valid {c : Candle} {rest : List Candle}
    (h : ∀ x ∈ c :: rest, x.Valid) :
    mergeChunk (c :: rest) = some
      { timestamp := c.timestamp
        open_ := c.open_
        high := rest.foldl (fun a x => max a x.high) c.high
        low := rest.foldl (fun a x => min a x.low) c.low
        close := (rest.getLastD c).close } := by
  have hc := h c (List.mem_cons_self c rest)
  have hlastmem : rest.getLastD c ∈ c :: rest := List.getLastD_mem_cons rest c
  have hlast := h _ hlastmem
  have hlowlast : rest.foldl (fun a x => min a x.low) c.low ≤
      (rest.getLastD c).low := by
    rcases List.mem_cons.mp hlastmem with he | hm
    · rw [he]
      exact foldl_min_le_init _ _ _
    · exact foldl_min_le_mem Candle.low hm _
  have hhighlast : (rest.getLastD c).high ≤
      rest.foldl (fun a x => max a x.high) c.high := by
    rcases List.mem_cons.mp hlastmem with he | hm
    · rw [he]
      exact le_foldl_max_init _ _ _
    · exact le_foldl_max_mem Candle.high hm _
  have hred : mergeChunk (c :: rest) =
      Candle.new c.timestamp c.open_
        (rest.foldl (fun a x => max a x.high) c.high)
        (rest.foldl (fun a x => min a x.low) c.low)
        ((rest.getLastD c).close) := rfl
  rw [hred]
  unfold Candle.new
  rw [if_pos]
  constructor
  · apply le_min
    · calc rest.foldl (fun a x => min a x.low) c.low
          ≤ c.low := foldl_min_le_init _ _ _
        _ ≤ min c.open_ c.close := hc.1
        _ ≤ c.open_ := min_le_left _ _
    · calc rest.foldl (fun a x => min a x.low) c.low
          ≤ (rest.getLastD c).low := hlowlast
        _ ≤ min (rest.getLastD c).open_ (rest.getLastD c).close := hlast.1
        _ ≤ (rest.getLastD c).close := min_le_right _ _
  · apply max_le
    · calc c.open_
          ≤ max c.open_ c.close := le_max_left _ _
        _ ≤ c.high := hc.2
        _ ≤ rest.foldl (fun a x => max a x.high) c.high :=
            le_foldl_max_init _ _ _
    · calc (rest.getLastD c).close
          ≤ max (rest.getLastD c).open_ (rest.getLastD c).close :=
            le_max_right _ _
        _ ≤ (rest.getLastD c).high := hlast.2
        _ ≤ rest.foldl (fun a x => max a x.high) c.high := hhighlast

/-- The relation between a source chunk and its merged synthetic candle,
as the specification words it: timestamp and open from the first member,
close from the last, high the maximum of the members' highs, low the
minimum of the members' lows, and the merged candle valid. -/
def MergedOfChunk (ch : List Candle) (m : Candle) : Prop :=
  m.timestamp = (ch.headD defaultCandle).timestamp ∧
  m.open_ = (ch.headD defaultCandle).open_ ∧
  m.close = (ch.getLastD defaultCandle).close ∧
  m.high ∈ ch.map Candle.high ∧ (∀ x ∈ ch, x.high ≤ m.high) ∧
  m.low ∈ ch.map Candle.low ∧ (∀ x ∈ ch, m.low ≤ x.low) ∧
  m.Valid

/-- The squash loop over chunks of valid candles succeeds and relates
each nonempty chunk to its merged candle. -/
theorem mergeAll_eq_of_valid {chunks : List (List Candle)}
    (hne : ∀ ch ∈ chunks, ch ≠ [])
    (h : ∀ ch ∈ chunks, ∀ x ∈ ch, x.Valid) :
    ∃ out, mergeAll chunks = some out ∧
      List.Forall₂ MergedOfChunk chunks out := by
  induction chunks with
  | nil => exact ⟨[], rfl, List.Forall₂.nil⟩
  | cons ch rest ih =>
    obtain ⟨out, hout, hrel⟩ := ih
      (fun x hx => hne x (List.mem_cons_of_mem _ hx))
      (fun x hx => h x (List.mem_cons_of_mem _ hx))
    cases ch with
    | nil => exact absurd rfl (hne [] (List.mem_cons_self _ _))
    | cons c cs =>
      have hch := h _ (List.mem_cons_self _ _)
      have hmerge := mergeChunk_eq_of_valid hch
      refine ⟨{ timestamp := c.timestamp
                open_ := c.open_
                high := cs.foldl (fun a x => max a x.high) c.high
                low := cs.foldl (fun a x => min a x.low) c.low
                close := (cs.getLastD c).close } :: out,
        ?_, List.Forall₂.cons ?_ hrel⟩
      · have hred : mergeAll ((c :: cs) :: rest) =
            match mergeChunk (c :: cs), mergeAll rest with
            | some m, some ms => some (m :: ms)
            | _, _ => none := rfl
        rw [hred, hmerge, hout]
      · refine ⟨rfl, rfl, ?_, ?_, ?_, ?_, ?_, ?_⟩
        · show (cs.getLastD c).close = ((c :: cs).getLastD defaultCandle).close
          rw [List.getLastD_cons]
        · exact foldl_max_mem Candle.high cs c
        · intro x hx
          rcases List.mem_cons.mp hx with hx | hx
          · subst hx
            exact le_foldl_max_init _ _ _
          · exact le_foldl_max_mem Candle.high hx _
        · exact foldl_min_mem Candle.low cs c
        · intro x hx
          rcases List.mem_cons.mp hx with hx | hx
          · subst hx
            exact foldl_min_le_init _ _ _
          · exact foldl_min_le_mem Candle.low hx _
        · exact Candle.valid_of_new_eq_some hmerge

/-- Every data candle of the rendered window is one of the chart's real
candles: the placeholders sit strictly outside the real timestamp span, so
the `[first_timestamp, last_timestamp]` filter removes them. -/
theorem data_candles_subset (c : CandleStickChart) (area : Rect)
    (st : CandleStickChartState) :
    ∀ x ∈ c.data_candles area st, x ∈ c.candles := by
  intro x hx
  unfold CandleStickChart.data_candles at hx
  rw [List.mem_filter] at hx
  obtain ⟨hxr, hbounds⟩ := hx
  simp only [Bool.and_eq_true, decide_eq_true_eq] at hbounds
  obtain ⟨hfirst, hlast⟩ := hbounds
  unfold CandleStickChart.rendered_candles at hxr
  rw [List.mem_filter] at hxr
  obtain ⟨hpad, _⟩ := hxr
  unfold CandleStickChart.paddedCandles at hpad
  simp only [List.mem_append, List.mem_map, List.mem_range] at hpad
  rcases hpad with (⟨j, hj, he⟩ | hmid) | ⟨j, hj, he⟩
  · exfalso
    have hts : x.timestamp =
        c.first_timestamp - ((c.chart_width area - 1 - j : Nat) : Int) * c.interval.ms := by
      rw [← he]; rfl
    have hcoeff : (1 : Int) ≤ ((c.chart_width area - 1 - j : Nat) : Int) := by
      exact_mod_cast Nat.one_le_iff_ne_zero.mpr (by omega)
    have hms := Interval.ms_pos c.interval
    nlinarith [hfirst, hts]
  · exact hmid
  · exfalso
    have hts : x.timestamp =
        c.last_timestamp + ((j + 1 : Nat) : Int) * c.interval.ms := by
      rw [← he]; rfl
    have hcoeff : (1 : Int) ≤ ((j + 1 : Nat) : Int) := by
      exact_mod_cast Nat.le_add_left 1 j
    have hms := Interval.ms_pos c.interval
    nlinarith [hlast, hts]

theorem forall₂_exists_left {α β : Type} {R : α → β → Prop} :
    ∀ {l1 : List α} {l2 : List β}, List.Forall₂ R l1 l2 →
      ∀ {b : β}, b ∈ l2 → ∃ a ∈ l1, R a b := by
  intro l1 l2 h
  induction h with
  | nil => intro b hb; cases hb
  | cons hR _ ih =>
    intro b hb
    rcases List.mem_cons.mp hb with hb | hb
    · subst hb
      exact ⟨_, List.mem_cons_self _ _, hR⟩
    · obtain ⟨a, ha, har⟩ := ih hb
      exact ⟨a, List.mem_cons_of_mem _ ha, har⟩

/-! ## C5 — squash preserves the candle invariant -/

/-- C5: over any window of a series of valid candles, every merge of the
squash step succeeds through the validating constructor, and every
synthetic candle it produces satisfies the ordering invariant. -/
theorem squash_merge_preserves_valid (c : CandleStickChart) (area : Rect)
    (st : CandleStickChartState) (k : Nat)
    (hvalid : ∀ x ∈ c.candles, x.Valid) :
    ∃ out, mergeAll (chunksOf k (c.data_candles area st)) = some out ∧
      ∀ m ∈ out, m.Valid := by
  obtain ⟨out, hout, hrel⟩ := mergeAll_eq_of_valid
    (chunksOf_ne_nil)
    (fun ch hch x hx =>
      hvalid x (data_candles_subset c area st x (mem_of_mem_chunksOf hch hx)))
  refine ⟨out, hout, ?_⟩
  intro m hm
  obtain ⟨ch, _, hrelm⟩ := forall₂_exists_left hrel hm
  exact hrelm.2.2.2.2.2.2.2

/-- Five valid candles packed 1000 ms apart (denser than the one-minute
interval), so that a two-column window holds more real candles than
columns. -/
def chartC5 : CandleStickChart :=
  ((((CandleStickChart.new .OneMinute).set_candles
    [⟨0, 1, 3, 0, 2⟩, ⟨1000, 2, 4, 1, 3⟩, ⟨2000, 3, 5, 2, 4⟩,
     ⟨3000, 1, 6, 1, 5⟩, ⟨4000, 5, 7, 3, 6⟩]).set_show_y_axis
      false).set_show_x_axis false).set_fit_mode .Fit

/-- A 2×4 viewport, axes hidden: two data columns. -/
def areaC5 : Rect := ⟨0, 0, 2, 4⟩

/-- Witness for C5: merging the concrete five-candle window in groups of
three succeeds and yields only valid candles. -/
theorem squash_merge_preserves_valid_witness :
    (∀ x ∈ chartC5.candles, x.Valid) ∧
    ∃ out, mergeAll (chunksOf 3 (chartC5.data_candles areaC5 st0)) = some out ∧
      ∀ m ∈ out, m.Valid :=
  ⟨by decide, squash_merge_preserves_valid chartC5 areaC5 st0 3 (by decide)⟩

/-! ## C4 — squash partitioning and merge values -/

/-- C4: in Fit mode with more real rendered candles than data columns,
the processed list is obtained by splitting the window's real candles
into consecutive groups of `ceil(count / columns)` (characterized by its
Galois property, with full groups everywhere except possibly the last,
and flattening back to the original list) and merging each group into one
synthetic candle carrying the first member's timestamp and open, the last
member's close, the maximum of the members' highs and the minimum of
their lows. -/
theorem squash_partition_merge (c : CandleStickChart) (area : Rect)
    (st : CandleStickChartState) (hfit : c.fit_mode = .Fit)
    (hover : c.chart_width area < (c.data_candles area st).length)
    (hcw : 0 < c.chart_width area)
    (hvalid : ∀ x ∈ c.candles, x.Valid) :
    ∃ out, c.processed_candles area st = some out ∧
      ((∀ m : Nat, c.squash_group_size area st ≤ m ↔
          (c.data_candles area st).length ≤ m * c.chart_width area) ∧
       (chunksOf (c.squash_group_size area st)
          (c.data_candles area st)).flatten = c.data_candles area st ∧
       (∀ ch ∈ chunksOf (c.squash_group_size area st) (c.data_candles area st),
          ch ≠ [] ∧ ch.length ≤ c.squash_group_size area st) ∧
       (∀ ch ∈ (chunksOf (c.squash_group_size area st)
          (c.data_candles area st)).dropLast,
          ch.length = c.squash_group_size area st) ∧
       List.Forall₂ MergedOfChunk
         (chunksOf (c.squash_group_size area st) (c.data_candles area st))
         out) := by
  have hk : 0 < c.squash_group_size area st := by
    unfold CandleStickChart.squash_group_size
    apply Nat.div_pos ?_ hcw
    omega
  obtain ⟨out, hout, hrel⟩ := mergeAll_eq_of_valid
    (chunksOf_ne_nil)
    (fun ch hch x hx =>
      hvalid x (data_candles_subset c area st x (mem_of_mem_chunksOf hch hx)))
  refine ⟨out, ?_, ?_, chunksOf_flatten _ _,
    (fun ch hch => ⟨chunksOf_ne_nil ch hch, chunksOf_length_le hk ch hch⟩),
    chunksOf_dropLast_length hk, hrel⟩
  · have hdne : ¬((c.data_candles area st).isEmpty = true) := by
      intro h0
      rw [List.isEmpty_iff] at h0
      rw [h0] at hover
      simp at hover
    unfold CandleStickChart.processed_candles
    simp only [hfit]
    rw [if_neg hdne, if_pos hover]
    exact hout
  · intro m
    unfold CandleStickChart.squash_group_size
    rw [Nat.div_le_iff_le_mul_add_pred hcw, Nat.mul_comm m (c.chart_width area)]
    omega

/-- Witness for C4: the five dense candles in a two-column Fit viewport
squash in groups of three. -/
theorem squash_partition_merge_witness :
    chartC5.fit_mode = .Fit ∧
    chartC5.chart_width areaC5 < (chartC5.data_candles areaC5 st0).length ∧
    0 < chartC5.chart_width areaC5 ∧
    (∀ x ∈ chartC5.candles, x.Valid) ∧
    ∃ out, chartC5.processed_candles areaC5 st0 = some out ∧
      ((∀ m : Nat, chartC5.squash_group_size areaC5 st0 ≤ m ↔
          (chartC5.data_candles areaC5 st0).length ≤
            m * chartC5.chart_width areaC5) ∧
       (chunksOf (chartC5.squash_group_size areaC5 st0)
          (chartC5.data_candles areaC5 st0)).flatten =
          chartC5.data_candles areaC5 st0 ∧
       (∀ ch ∈ chunksOf (chartC5.squash_group_size areaC5 st0)
          (chartC5.data_candles areaC5 st0),
          ch ≠ [] ∧ ch.length ≤ chartC5.squash_group_size areaC5 st0) ∧
       (∀ ch ∈ (chunksOf (chartC5.squash_group_size areaC5 st0)
          (chartC5.data_candles areaC5 st0)).dropLast,
          ch.length = chartC5.squash_group_size areaC5 st0) ∧
       List.Forall₂ MergedOfChunk
         (chunksOf (chartC5.squash_group_size areaC5 st0)
           (chartC5.data_candles areaC5 st0))
         out) :=
  ⟨rfl, by decide, by decide, by decide,
    squash_partition_merge chartC5 areaC5 st0 rfl (by decide) (by decide)
      (by decide)⟩

/-! ## C6 — stretch layout -/

/-- The number of marked gaps equals `extra` whenever `extra` does not
exceed the gap count: the fractional positions are strictly increasing
and all land strictly below the last candle, so no mark is lost. -/
theorem spacePositions_count_true (len extra : Nat) (h : extra ≤ len - 1) :
    (spacePositions len extra).count true = extra := by
  by_cases h0 : 0 < extra ∧ 1 < len
  · obtain ⟨hex, hlen⟩ := h0
    unfold spacePositions
    rw [if_pos ⟨hex, hlen⟩]
    have hgpos : 0 < len - 1 := by omega
    have hepos : 0 < 2 * extra := by omega
    have hlt : ∀ i < extra, gapPosition i (len - 1) extra < len - 1 := by
      intro i hi
      unfold gapPosition
      rw [Nat.div_lt_iff_lt_mul hepos]
      calc (2 * i + 1) * (len - 1) < (2 * extra) * (len - 1) :=
            (mul_lt_mul_right hgpos).mpr (by omega)
        _ = (len - 1) * (2 * extra) := Nat.mul_comm _ _
    have hmono : StrictMono (fun i => gapPosition i (len - 1) extra) := by
      apply strictMono_nat_of_lt_succ
      intro n
      show gapPosition n (len - 1) extra < gapPosition (n + 1) (len - 1) extra
      unfold gapPosition
      have hstep : (2 * n + 1) * (len - 1) + 2 * extra ≤
          (2 * (n + 1) + 1) * (len - 1) := by
        have h2 : 2 * extra ≤ 2 * (len - 1) := by omega
        calc (2 * n + 1) * (len - 1) + 2 * extra
            ≤ (2 * n + 1) * (len - 1) + 2 * (len - 1) := by omega
          _ = (2 * (n + 1) + 1) * (len - 1) := by ring
      calc (2 * n + 1) * (len - 1) / (2 * extra)
          < (2 * n + 1) * (len - 1) / (2 * extra) + 1 := Nat.lt_succ_self _
        _ = ((2 * n + 1) * (len - 1) + 2 * extra) / (2 * extra) :=
            (Nat.add_div_right _ hepos).symm
        _ ≤ ((2 * (n + 1) + 1) * (len - 1)) / (2 * extra) :=
            Nat.div_le_div_right hstep
    have hSnodup : ((List.range extra).map
        (fun i => gapPosition i (len - 1) extra)).Nodup := by
      have hpair := (List.pairwise_lt_range extra).map
        (fun i => gapPosition i (len - 1) extra) (fun _ _ hij => hmono hij)
      exact hpair.imp Nat.ne_of_lt
    have hmem : ∀ p, p ∈ (List.range len).filter (fun p =>
        decide (p + 1 < len) &&
          (List.range extra).any fun i =>
            decide (i < len - 1) &&
              decide (gapPosition i (len - 1) extra = p)) ↔
        p ∈ (List.range extra).map (fun i => gapPosition i (len - 1) extra) := by
      intro p
      rw [List.mem_filter, List.mem_range]
      constructor
      · rintro ⟨_, hpred⟩
        simp only [Bool.and_eq_true, decide_eq_true_eq,
          List.any_eq_true] at hpred
        obtain ⟨_, i, hi, _, hie⟩ := hpred
        exact List.mem_map.mpr ⟨i, hi, hie⟩
      · intro hp
        obtain ⟨i, hi, hie⟩ := List.mem_map.mp hp
        have hi' := List.mem_range.mp hi
        have hplt : p < len - 1 := hie ▸ hlt i hi'
        refine ⟨by omega, ?_⟩
        simp only [Bool.and_eq_true, decide_eq_true_eq, List.any_eq_true]
        exact ⟨by omega, i, hi, by omega, hie⟩
    have hfn : ((List.range len).filter (fun p =>
        decide (p + 1 < len) &&
          (List.range extra).any fun i =>
            decide (i < len - 1) &&
              decide (gapPosition i (len - 1) extra = p))).Nodup :=
      (List.nodup_range len).filter _
    have hlen1 := (List.subperm_of_subset hfn
      (fun p hp => (hmem p).mp hp)).length_le
    have hlen2 := (List.subperm_of_subset hSnodup
      (fun p hp => (hmem p).mpr hp)).length_le
    have hcount : ((List.range len).map (fun p =>
        decide (p + 1 < len) &&
          (List.range extra).any fun i =>
            decide (i < len - 1) &&
              decide (gapPosition i (len - 1) extra = p))).count true =
        ((List.range len).filter (fun p =>
          decide (p + 1 < len) &&
            (List.range extra).any fun i =>
              decide (i < len - 1) &&
                decide (gapPosition i (len - 1) extra = p))).length := by
      rw [List.count, List.countP_map]
      rw [show ((fun x => x == true) ∘ (fun p =>
        decide (p + 1 < len) &&
          (List.range extra).any fun i =>
            decide (i < len - 1) &&
              decide (gapPosition i (len - 1) extra = p))) = (fun p =>
        decide (p + 1 < len) &&
          (List.range extra).any fun i =>
            decide (i < len - 1) &&
              decide (gapPosition i (len - 1) extra = p)) from by
        funext p
        simp [Function.comp]]
      exact List.countP_eq_length_filter _ _
    rw [hcount]
    have hSlen : ((List.range extra).map
        (fun i => gapPosition i (len - 1) extra)).length = extra := by
      simp
    omega
  · have hzero : extra = 0 := by
      rcases Nat.eq_zero_or_pos extra with hz | hpos
      · exact hz
      · exfalso
        exact h0 ⟨hpos, by omega⟩
    subst hzero
    unfold spacePositions
    rw [if_neg (by omega)]
    simp [List.count_replicate]

/-- C6: in Fit stretch mode (at most as many real candles as data
columns), each candle receives width `max 1 (columns / count)`, the sum
of candle widths plus the number of inserted single-column gaps is
exactly the number of data columns, and no gap ever receives more than
one extra column more than any other. -/
theorem stretch_layout_fills_columns (c : CandleStickChart) (area : Rect)
    (st : CandleStickChartState) (hfit : c.fit_mode = .Fit)
    (hne : c.data_candles area st ≠ [])
    (hle : (c.data_candles area st).length ≤ c.chart_width area) :
    c.candle_width area st =
      max 1 (c.chart_width area / (c.data_candles area st).length) ∧
    c.candle_width area st * (c.data_candles area st).length +
      (c.space_positions area st).count true = c.chart_width area ∧
    (∀ p q : Nat,
      (if (c.space_positions area st).getD p false then 1 else 0) ≤
        ((if (c.space_positions area st).getD q false then 1 else 0) : Nat) +
          1) := by
  have hlenpos : 0 < (c.data_candles area st).length :=
    List.length_pos.mpr hne
  have hnotover : ¬(c.chart_width area < (c.data_candles area st).length) := by
    omega
  have hemp : ¬((c.data_candles area st).isEmpty = true) := by
    intro h0
    exact hne (List.isEmpty_iff.mp h0)
  have hw : c.candle_width area st =
      max 1 (c.chart_width area / (c.data_candles area st).length) := by
    unfold CandleStickChart.candle_width
    simp only [hfit]
    rw [if_neg hemp, if_neg hnotover]
  have hxs : c.extra_spaces area st = c.chart_width area -
      max 1 (c.chart_width area / (c.data_candles area st).length) *
        (c.data_candles area st).length := by
    unfold CandleStickChart.extra_spaces
    simp only [hfit]
    rw [if_neg hemp, if_neg hnotover]
  have hproc : c.processed_candles area st = some (c.data_candles area st) := by
    unfold CandleStickChart.processed_candles
    simp only [hfit]
    rw [if_neg hemp, if_neg hnotover]
  have hbase : max 1 (c.chart_width area / (c.data_candles area st).length) =
      c.chart_width area / (c.data_candles area st).length := by
    have h1 : 1 ≤ c.chart_width area / (c.data_candles area st).length :=
      (Nat.one_le_div_iff hlenpos).mpr hle
    omega
  have hdm := Nat.div_add_mod (c.chart_width area)
    (c.data_candles area st).length
  have hmodlt := Nat.mod_lt (c.chart_width area) hlenpos
  have hextra : c.extra_spaces area st =
      c.chart_width area % (c.data_candles area st).length := by
    rw [hxs, hbase, Nat.mul_comm]
    omega
  have hsp : c.space_positions area st =
      spacePositions (c.data_candles area st).length
        (c.extra_spaces area st) := by
    unfold CandleStickChart.space_positions
    rw [hproc]
    rfl
  have hcount : (c.space_positions area st).count true =
      c.extra_spaces area st := by
    rw [hsp]
    apply spacePositions_count_true
    rw [hextra]
    omega
  refine ⟨hw, ?_, ?_⟩
  · rw [hw, hbase, hcount, hextra, Nat.mul_comm]
    omega
  · intro p q
    split <;> split <;> omega

/-- A 9×4 viewport for the stretch witness: nine data columns for the
five candles of `chartC5`. -/
def areaC6 : Rect := ⟨0, 0, 9, 4⟩

/-- Witness for C6: five candles over nine columns get width 1 each and
four inserted gaps, summing to nine. -/
theorem stretch_layout_fills_columns_witness :
    chartC5.fit_mode = .Fit ∧
    chartC5.data_candles areaC6 st0 ≠ [] ∧
    (chartC5.data_candles areaC6 st0).length ≤ chartC5.chart_width areaC6 ∧
    (chartC5.candle_width areaC6 st0 =
      max 1 (chartC5.chart_width areaC6 /
        (chartC5.data_candles areaC6 st0).length) ∧
    chartC5.candle_width areaC6 st0 *
        (chartC5.data_candles areaC6 st0).length +
      (chartC5.space_positions areaC6 st0).count true =
        chartC5.chart_width areaC6 ∧
    (∀ p q : Nat,
      (if (chartC5.space_positions areaC6 st0).getD p false then 1 else 0) ≤
        ((if (chartC5.space_positions areaC6 st0).getD q false then 1
          else 0) : Nat) + 1)) :=
  ⟨rfl, by decide, by decide,
    stretch_layout_fills_columns chartC5 areaC6 st0 rfl (by decide)
      (by decide)⟩

/-! ## Window membership and totality helpers -/

theorem getLastD_mem {l : List Candle} (h : l ≠ []) (d : Candle) :
    l.getLastD d ∈ l := by
  cases l with
  | nil => exact absurd rfl h
  | cons a t =>
    rw [List.getLastD_cons]
    exact List.getLastD_mem_cons t a

theorem headD_timestamp_le {l : List Candle}
    (hp : l.Pairwise (fun a b => a.timestamp ≤ b.timestamp)) {x : Candle}
    (hx : x ∈ l) (d : Candle) : (l.headD d).timestamp ≤ x.timestamp := by
  cases l with
  | nil => cases hx
  | cons a t =>
    rcases List.mem_cons.mp hx with h | h
    · subst h
      exact le_refl _
    · exact (List.pairwise_cons.mp hp).1 x h

theorem le_getLastD_timestamp {l : List Candle}
    (hp : l.Pairwise (fun a b => a.timestamp ≤ b.timestamp)) {x : Candle}
    (hx : x ∈ l) : ∀ d : Candle, x.timestamp ≤ (l.getLastD d).timestamp := by
  induction l with
  | nil => cases hx
  | cons a t ih =>
    intro d
    rw [List.getLastD_cons]
    rcases List.mem_cons.mp hx with h | h
    · subst h
      rcases List.mem_cons.mp (List.getLastD_mem_cons t x) with he | hm
      · rw [he]
      · exact (List.pairwise_cons.mp hp).1 _ hm
    · exact ih (List.Pairwise.of_cons hp) h a

theorem mem_padded_of_mem {c : CandleStickChart} {cw : Nat} {x : Candle}
    (hx : x ∈ c.candles) : x ∈ c.paddedCandles cw := by
  unfold CandleStickChart.paddedCandles
  exact List.mem_append.mpr (Or.inl (List.mem_append.mpr (Or.inr hx)))

theorem mem_rendered_iff {c : CandleStickChart} {area : Rect}
    {st : CandleStickChartState} {x : Candle} :
    x ∈ c.rendered_candles area st ↔
      x ∈ c.paddedCandles (c.chart_width area) ∧
      c.chart_start_timestamp area st ≤ x.timestamp ∧
      x.timestamp ≤ c.chart_end_timestamp st := by
  unfold CandleStickChart.rendered_candles
  rw [List.mem_filter]
  simp [Bool.and_eq_true, decide_eq_true_eq, and_assoc]

theorem mem_data_iff {c : CandleStickChart} {area : Rect}
    {st : CandleStickChartState} {x : Candle} :
    x ∈ c.data_candles area st ↔
      x ∈ c.rendered_candles area st ∧
      c.first_timestamp ≤ x.timestamp ∧
      x.timestamp ≤ c.last_timestamp := by
  unfold CandleStickChart.data_candles
  rw [List.mem_filter]
  simp [Bool.and_eq_true, decide_eq_true_eq, and_assoc]

theorem processed_candles_isSome (c : CandleStickChart) (area : Rect)
    (st : CandleStickChartState)
    (hvalid : ∀ x ∈ c.candles, x.Valid) :
    (c.processed_candles area st).isSome := by
  unfold CandleStickChart.processed_candles
  cases hfm : c.fit_mode with
  | Fixed => simp
  | Fit =>
    simp only
    by_cases hde : (c.data_candles area st).isEmpty = true
    · rw [if_pos hde]
      rfl
    · rw [if_neg hde]
      by_cases hover :
          c.chart_width area < (c.data_candles area st).length
      · rw [if_pos hover]
        obtain ⟨out, hout, _⟩ := mergeAll_eq_of_valid
          (chunksOf_ne_nil)
          (fun ch hch x hx => hvalid x
            (data_candles_subset c area st x (mem_of_mem_chunksOf hch hx)))
        rw [hout]
        rfl
      · rw [if_neg hover]
        rfl

/-- The shared totality argument: when the visible window contains at
least one real candle (in particular, whenever the cursor is cleared),
every `unwrap` of the render pipeline succeeds. -/
theorem render_no_panic_aux (c : CandleStickChart) (area : Rect)
    (st : CandleStickChartState)
    (hvalid : ∀ x ∈ c.candles, x.Valid)
    (hsorted : c.candles.Pairwise (fun a b => a.timestamp ≤ b.timestamp))
    (hwin : st.cursor_timestamp = none ∨
      ∃ x ∈ c.candles, c.chart_start_timestamp area st ≤ x.timestamp ∧
        x.timestamp ≤ c.chart_end_timestamp st) :
    (c.render area st).panicked = false := by
  unfold CandleStickChart.render
  by_cases hg : c.guard area
  · rw [if_pos hg]
  · rw [if_neg hg]
    have hne : c.candles ≠ [] := fun h0 => hg (Or.inl h0)
    obtain ⟨x, hx, hx1, hx2⟩ : ∃ x ∈ c.candles,
        c.chart_start_timestamp area st ≤ x.timestamp ∧
        x.timestamp ≤ c.chart_end_timestamp st := by
      rcases hwin with hcur | hex
      · have hend : c.chart_end_timestamp st = c.last_timestamp := by
          unfold CandleStickChart.chart_end_timestamp
          rw [hcur]
          rfl
        have hts : (c.candles.getLastD defaultCandle).timestamp =
            c.last_timestamp := rfl
        refine ⟨c.candles.getLastD defaultCandle, getLastD_mem hne _, ?_, ?_⟩
        · unfold CandleStickChart.chart_start_timestamp
          rw [hend, hts]
          have hms : (0 : Int) ≤ c.interval.ms *
              ((c.chart_width area - 1 : Nat) : Int) :=
            mul_nonneg (le_of_lt (Interval.ms_pos _)) (Int.natCast_nonneg _)
          linarith
        · rw [hend, hts]
      · exact hex
    have hxrend : x ∈ c.rendered_candles area st :=
      mem_rendered_iff.mpr ⟨mem_padded_of_mem hx, hx1, hx2⟩
    have hxdata : x ∈ c.data_candles area st :=
      mem_data_iff.mpr ⟨hxrend, headD_timestamp_le hsorted hx _,
        le_getLastD_timestamp hsorted hx _⟩
    have hdata_ne : c.data_candles area st ≠ [] := List.ne_nil_of_mem hxdata
    cases hrc : c.rendered_candles area st with
    | nil => exact absurd hrc (List.ne_nil_of_mem hxrend)
    | cons r rs =>
      obtain ⟨v1, h1⟩ : ∃ v, c.y_min area st = some v := by
        unfold CandleStickChart.y_min
        cases hd : c.data_candles area st with
        | nil => exact absurd hd hdata_ne
        | cons a t => exact ⟨_, rfl⟩
      obtain ⟨v2, h2⟩ : ∃ v, c.y_max area st = some v := by
        unfold CandleStickChart.y_max
        cases hd : c.data_candles area st with
        | nil => exact absurd hd hdata_ne
        | cons a t => exact ⟨_, rfl⟩
      rw [h1, h2]
      obtain ⟨pr, hpr⟩ := Option.isSome_iff_exists.mp
        (processed_candles_isSome c area st hvalid)
      rw [hpr]

/-! ## C1 — totality of render -/

/-- C1 (amended): for a well-formed series — every candle valid, the
timestamps sorted — a render call never panics when the cursor is
cleared, and more generally whenever the visible window contains at
least one real candle; the guard exits and all numeric stages (visible
range, ticks, squash merges) then complete.  (With a pinned cursor whose
window misses every real candle the source does panic; see the
counterexample.) -/
theorem render_no_panic_of_window_hits_real (c : CandleStickChart)
    (area : Rect) (st : CandleStickChartState)
    (hvalid : ∀ x ∈ c.candles, x.Valid)
    (hsorted : c.candles.Pairwise (fun a b => a.timestamp ≤ b.timestamp))
    (hwin : st.cursor_timestamp = none ∨
      ∃ x ∈ c.candles, c.chart_start_timestamp area st ≤ x.timestamp ∧
        x.timestamp ≤ c.chart_end_timestamp st) :
    (c.render area st).panicked = false :=
  render_no_panic_aux c area st hvalid hsorted hwin

/-- Witness for C1 at the concrete two-candle chart with a cleared
cursor. -/
theorem render_no_panic_witness :
    (∀ x ∈ chartC3.candles, x.Valid) ∧
    chartC3.candles.Pairwise (fun a b => a.timestamp ≤ b.timestamp) ∧
    st0.cursor_timestamp = none ∧
    (chartC3.render areaC3 st0).panicked = false :=
  ⟨by decide, by decide, rfl,
    render_no_panic_of_window_hits_real chartC3 areaC3 st0 (by decide)
      (by decide) (Or.inl rfl)⟩

/-- Counterexample to C1 as stated: a well-formed two-candle series whose
render panics when the cursor is pinned far past the padded range — the
rendered set is empty and the source's `rendered_candles.first().unwrap()`
(line 225) fails. -/
theorem render_panics_on_far_cursor :
    (∀ x ∈ chartC8.candles, x.Valid) ∧
    chartC8.candles.Pairwise (fun a b => a.timestamp ≤ b.timestamp) ∧
    (chartC8.render areaC8 { cursor_timestamp := some 999999999 }).panicked =
      true :=
  ⟨by decide, by decide, by rfl⟩

/-! ## C9 — cursor panning -/

/-- C9 (amended): for a well-formed non-empty series, (a) pinning the
cursor strictly before the earliest real timestamp but within one padded
window of it still publishes the scrolled-past-start flag as `true` into
the caller-owned state, but the render then panics in the visible-range
computation instead of completing; (b) a render with the cursor cleared
completes and anchors the window end at the newest real candle's
timestamp. -/
theorem cursor_panning_flag_and_live_anchor (c : CandleStickChart)
    (area : Rect)
    (hvalid : ∀ x ∈ c.candles, x.Valid)
    (hsorted : c.candles.Pairwise (fun a b => a.timestamp ≤ b.timestamp))
    (hne : c.candles ≠ []) :
    (∀ (st : CandleStickChartState) (t : Int),
      st.cursor_timestamp = some t →
      ¬c.guard area →
      2 ≤ c.chart_width area →
      c.first_timestamp -
        ((c.chart_width area - 1 : Nat) : Int) * c.interval.ms ≤ t →
      t < c.first_timestamp →
      ((c.render area st).state.info.map
          CandleStikcChartInfo.scrolled_past_start = some true ∧
        (c.render area st).panicked = true)) ∧
    (∀ st : CandleStickChartState, st.cursor_timestamp = none →
      ((c.render area st).panicked = false ∧
        c.chart_end_timestamp st = c.last_timestamp)) := by
  constructor
  · intro st t hcur hguard hcw2 hlow hhigh
    have hendt : c.chart_end_timestamp st = t := by
      unfold CandleStickChart.chart_end_timestamp
      rw [hcur]
      rfl
    have hp0mem : placeholderCandle (c.first_timestamp -
        ((c.chart_width area - 1 - 0 : Nat) : Int) * c.interval.ms) ∈
        c.paddedCandles (c.chart_width area) := by
      unfold CandleStickChart.paddedCandles
      refine List.mem_append.mpr (Or.inl (List.mem_append.mpr (Or.inl ?_)))
      exact List.mem_map.mpr ⟨0, List.mem_range.mpr (by omega), rfl⟩
    have hp0ts : (placeholderCandle (c.first_timestamp -
        ((c.chart_width area - 1 - 0 : Nat) : Int) * c.interval.ms)).timestamp =
        c.first_timestamp -
          ((c.chart_width area - 1 : Nat) : Int) * c.interval.ms := by
      simp [placeholderCandle]
    have hcomm : c.interval.ms * ((c.chart_width area - 1 : Nat) : Int) =
        ((c.chart_width area - 1 : Nat) : Int) * c.interval.ms :=
      mul_comm _ _
    have hp0rend : placeholderCandle (c.first_timestamp -
        ((c.chart_width area - 1 - 0 : Nat) : Int) * c.interval.ms) ∈
        c.rendered_candles area st := by
      refine mem_rendered_iff.mpr ⟨hp0mem, ?_, ?_⟩
      · unfold CandleStickChart.chart_start_timestamp
        rw [hendt, hp0ts, hcomm]
        linarith
      · rw [hendt, hp0ts]
        linarith
    have hrne : c.rendered_candles area st ≠ [] :=
      List.ne_nil_of_mem hp0rend
    have hdata : c.data_candles area st = [] := by
      unfold CandleStickChart.data_candles
      apply List.filter_eq_nil_iff.mpr
      intro a ha
      have hat : a.timestamp ≤ c.chart_end_timestamp st :=
        (mem_rendered_iff.mp ha).2.2
      rw [hendt] at hat
      simp only [Bool.and_eq_true, decide_eq_true_eq, not_and]
      intro hfa
      exfalso
      linarith
    have hymin : c.y_min area st = none := by
      unfold CandleStickChart.y_min
      rw [hdata]
      rfl
    have hymax : c.y_max area st = none := by
      unfold CandleStickChart.y_max
      rw [hdata]
      rfl
    have hflag : (c.chart_info area st).scrolled_past_start = true := by
      unfold CandleStickChart.chart_info
      simp only [CandleStikcChartInfo.new]
      cases hrc : c.rendered_candles area st with
      | nil => exact absurd hrc hrne
      | cons r rs =>
        have hrmem : r ∈ c.rendered_candles area st := by
          rw [hrc]
          exact List.mem_cons_self _ _
        have hrle : r.timestamp ≤ c.chart_end_timestamp st :=
          (mem_rendered_iff.mp hrmem).2.2
        rw [hendt] at hrle
        simp only [List.headD_cons, decide_eq_true_eq]
        linarith
    unfold CandleStickChart.render
    rw [if_neg hguard]
    cases hrc : c.rendered_candles area st with
    | nil => exact absurd hrc hrne
    | cons r rs =>
      rw [hymin, hymax]
      exact ⟨by
        show some ((c.chart_info area st).scrolled_past_start) = some true
        rw [hflag], rfl⟩
  · intro st hcur
    refine ⟨render_no_panic_aux c area st hvalid hsorted (Or.inl hcur), ?_⟩
    unfold CandleStickChart.chart_end_timestamp
    rw [hcur]
    rfl

/-- The state pinned one interval before the earliest real candle of
`chartC8`. -/
def stC9 : CandleStickChartState := { cursor_timestamp := some (-60000) }

/-- Witness for C9 at the concrete two-candle chart: the pinned render
publishes the flag and panics; the cleared render completes anchored at
timestamp 240000. -/
theorem cursor_panning_flag_and_live_anchor_witness :
    (∀ x ∈ chartC8.candles, x.Valid) ∧
    chartC8.candles.Pairwise (fun a b => a.timestamp ≤ b.timestamp) ∧
    chartC8.candles ≠ [] ∧
    ((chartC8.render areaC8 stC9).state.info.map
        CandleStikcChartInfo.scrolled_past_start = some true ∧
      (chartC8.render areaC8 stC9).panicked = true) ∧
    ((chartC8.render areaC8 st0).panicked = false ∧
      chartC8.chart_end_timestamp st0 = chartC8.last_timestamp) :=
  ⟨by decide, by decide, by decide,
    (cursor_panning_flag_and_live_anchor chartC8 areaC8 (by decide)
      (by decide) (by decide)).1 stC9 (-60000) rfl (by decide) (by decide)
      (by decide) (by decide),
    (cursor_panning_flag_and_live_anchor chartC8 areaC8 (by decide)
      (by decide) (by decide)).2 st0 rfl⟩

/-- Counterexample to C9 as stated: with the cursor pinned strictly
before the earliest real timestamp the render does **not** complete — it
panics (after publishing the flag), so "completes and publishes" fails
on the completion half. -/
theorem cursor_before_start_render_panics :
    stC9.cursor_timestamp = some (-60000) ∧
    (-60000 : Int) < chartC8.first_timestamp ∧
    (chartC8.render areaC8 stC9).panicked = true :=
  ⟨rfl, by decide, by rfl⟩

end Chart
